import Mathlib

/-!
Verification development for the AutoERGen repository (two Streamlit variants:
`autoergen.py`, the structured-JSON variant, and `app.py`, the DOT variant).

Python strings are modelled as `List Char` (named `PyStr`).  The Python string
methods used by the source (`str.strip`, `str.replace`, `str.split`,
`str.startswith`, the `in` substring test, slicing) are modelled as executable
functions on `PyStr`.  `json.loads` (Python standard library) is modelled by an
executable recursive-descent JSON parser producing an inductive `Json` value.
Fallible Python code (KeyError, raised exceptions) is modelled with `Except`.
-/

set_option maxRecDepth 10000

/-- Characters written by code point to keep the development free of delimiter
literals: backtick. -/
def tickC : Char := Char.ofNat 96

/-- Left curly brace. -/
def lbC : Char := Char.ofNat 123

/-- Right curly brace. -/
def rbC : Char := Char.ofNat 125

/-- Left square bracket. -/
def lkC : Char := Char.ofNat 91

/-- Right square bracket. -/
def rkC : Char := Char.ofNat 93

/-- Double quote. -/
def qC : Char := Char.ofNat 34

/-- Backslash. -/
def bsC : Char := Char.ofNat 92

/-- Comma. -/
def cmC : Char := Char.ofNat 44

/-- Colon. -/
def clC : Char := Char.ofNat 58

/-- Python strings, modelled as lists of characters. -/
abbrev PyStr := List Char

/-- The characters Python's `str.strip()` removes (the `str.isspace` set,
restricted to ASCII: space, tab, newline, carriage return, vertical tab,
form feed). -/
def pyIsSpace (c : Char) : Bool :=
  c = ' ' || c = '\t' || c = '\n' || c = '\r' || c = Char.ofNat 11 || c = Char.ofNat 12

/-- Model of Python `s.strip()`: drop leading and trailing whitespace. -/
def pyStrip (s : PyStr) : PyStr :=
  ((s.dropWhile pyIsSpace).reverse.dropWhile pyIsSpace).reverse

/-- Find the first occurrence of (non-empty) `sep` in `s`; return the part
before it and the part after it.  `none` when `sep` does not occur.  This is
the shared search primitive behind the models of `str.replace`, `str.split`
and the `in` substring test. -/
def findSplit (sep : PyStr) : PyStr → Option (PyStr × PyStr)
  | [] => none
  | c :: rest =>
    if sep.isPrefixOf (c :: rest) then some ([], (c :: rest).drop sep.length)
    else
      match findSplit sep rest with
      | none => none
      | some (pre, post) => some (c :: pre, post)

/-- Fuelled worker for the model of Python `s.replace(sep, repl)`: replace all
non-overlapping occurrences, left to right. -/
def pyReplaceFuel (sep repl : PyStr) : Nat → PyStr → PyStr
  | 0, s => s
  | n + 1, s =>
    match findSplit sep s with
    | none => s
    | some (pre, post) => pre ++ repl ++ pyReplaceFuel sep repl n post

/-- Model of Python `s.replace(sep, repl)` for non-empty `sep`. -/
def pyReplace (sep repl s : PyStr) : PyStr :=
  pyReplaceFuel sep repl (s.length + 1) s

/-- Fuelled worker for the model of Python `s.split(sep)`. -/
def pySplitFuel (sep : PyStr) : Nat → PyStr → List PyStr
  | 0, s => [s]
  | n + 1, s =>
    match findSplit sep s with
    | none => [s]
    | some (pre, post) => pre :: pySplitFuel sep n post

/-- Model of Python `s.split(sep)` for non-empty `sep`. -/
def pySplit (sep s : PyStr) : List PyStr :=
  pySplitFuel sep (s.length + 1) s

/-- Model of Python `sep in s` (substring containment) for non-empty `sep`. -/
def pyContains (sep s : PyStr) : Bool :=
  (findSplit sep s).isSome

/-- JSON values, the result type of the model of `json.loads`.  Numbers keep
their source lexeme (their numeric value is never used by the repository). -/
inductive Json where
  | null : Json
  | bool : Bool → Json
  | num : String → Json
  | str : String → Json
  | arr : List Json → Json
  | obj : List (String × Json) → Json

/-- JSON insignificant whitespace (as accepted by Python's `json` module). -/
def jsonWs (c : Char) : Bool :=
  c = ' ' || c = '\t' || c = '\n' || c = '\r'

/-- Skip insignificant JSON whitespace. -/
def skipWs (s : PyStr) : PyStr := s.dropWhile jsonWs

/-- Decode a single-character JSON escape (everything but `\uXXXX`). -/
def escChar (c : Char) : Option Char :=
  if c = qC then some qC
  else if c = bsC then some bsC
  else if c = '/' then some '/'
  else if c = 'b' then some (Char.ofNat 8)
  else if c = 'f' then some (Char.ofNat 12)
  else if c = 'n' then some '\n'
  else if c = 'r' then some '\r'
  else if c = 't' then some '\t'
  else none

/-- Value of one hexadecimal digit. -/
def hexVal (c : Char) : Option Nat :=
  if c.isDigit then some (c.toNat - 48)
  else if 'a' ≤ c && c ≤ 'f' then some (c.toNat - 87)
  else if 'A' ≤ c && c ≤ 'F' then some (c.toNat - 55)
  else none

/-- Parse the body of a JSON string (the opening quote already consumed),
returning the decoded characters and the remaining input.  `\uXXXX` escapes
are decoded to the corresponding code point (surrogate pairs are not
recombined — a simplification of Python's decoder that no claim depends on). -/
def parseChars : PyStr → Option (PyStr × PyStr)
  | [] => none
  | c :: rest =>
    if c = qC then some ([], rest)
    else if c = bsC then
      match rest with
      | [] => none
      | e :: r2 =>
        if e = 'u' then
          match r2 with
          | h1 :: h2 :: h3 :: h4 :: r3 =>
            match hexVal h1, hexVal h2, hexVal h3, hexVal h4 with
            | some v1, some v2, some v3, some v4 =>
              match parseChars r3 with
              | none => none
              | some (cs, r) =>
                some (Char.ofNat (((v1 * 16 + v2) * 16 + v3) * 16 + v4) :: cs, r)
            | _, _, _, _ => none
          | _ => none
        else
          match escChar e with
          | none => none
          | some ec =>
            match parseChars r2 with
            | none => none
            | some (cs, r) => some (ec :: cs, r)
    else
      match parseChars rest with
      | none => none
      | some (cs, r) => some (c :: cs, r)

/-- Integer part of a JSON number: `0`, or a nonzero digit followed by
digits. -/
def parseIntPart : PyStr → Option (PyStr × PyStr)
  | [] => none
  | c :: rest =>
    if c = '0' then some ([c], rest)
    else if c.isDigit then some (c :: rest.takeWhile Char.isDigit, rest.dropWhile Char.isDigit)
    else none

/-- Optional fraction part of a JSON number (`.` followed by digits). -/
def parseFracPart : PyStr → (PyStr × PyStr)
  | [] => ([], [])
  | c :: rest =>
    if c = '.' then
      match rest with
      | d :: _ =>
        if d.isDigit then (c :: rest.takeWhile Char.isDigit, rest.dropWhile Char.isDigit)
        else ([], c :: rest)
      | [] => ([], c :: rest)
    else ([], c :: rest)

/-- Optional exponent part of a JSON number (`e`/`E`, optional sign,
digits). -/
def parseExpPart : PyStr → (PyStr × PyStr)
  | [] => ([], [])
  | c :: rest =>
    if c = 'e' || c = 'E' then
      match rest with
      | d :: r2 =>
        if d.isDigit then (c :: rest.takeWhile Char.isDigit, rest.dropWhile Char.isDigit)
        else if d = '+' || d = '-' then
          match r2 with
          | e2 :: _ =>
            if e2.isDigit then (c :: d :: r2.takeWhile Char.isDigit, r2.dropWhile Char.isDigit)
            else ([], c :: rest)
          | [] => ([], c :: rest)
        else ([], c :: rest)
      | [] => ([], c :: rest)
    else ([], c :: rest)

/-- Lexeme of a JSON number (optional minus, integer, fraction, exponent). -/
def parseNumberLex (s : PyStr) : Option (PyStr × PyStr) :=
  let negs1 : PyStr × PyStr :=
    match s with
    | c :: rest => if c = '-' then ([c], rest) else ([], s)
    | [] => ([], [])
  match parseIntPart negs1.2 with
  | none => none
  | some (ip, s2) =>
    let fp := parseFracPart s2
    let ep := parseExpPart fp.2
    some (negs1.1 ++ ip ++ fp.1 ++ ep.1, ep.2)

mutual

/-- Fuelled recursive-descent parser for a JSON value (model of the grammar
accepted by Python's `json.loads`, including the CPython extensions
`NaN`, `Infinity`, `-Infinity`). -/
def parseVal : Nat → PyStr → Option (Json × PyStr)
  | 0, _ => none
  | fuel + 1, s =>
    match skipWs s with
    | [] => none
    | c :: rest =>
      if c = lbC then
        match skipWs rest with
        | [] => none
        | d :: r2 =>
          if d = rbC then some (.obj [], r2)
          else
            match parseMembers fuel (d :: r2) with
            | none => none
            | some (ms, r3) => some (.obj ms, r3)
      else if c = lkC then
        match skipWs rest with
        | [] => none
        | d :: r2 =>
          if d = rkC then some (.arr [], r2)
          else
            match parseItems fuel (d :: r2) with
            | none => none
            | some (xs, r3) => some (.arr xs, r3)
      else if c = qC then
        match parseChars rest with
        | none => none
        | some (cs, r2) => some (.str (String.mk cs), r2)
      else if ("true".toList).isPrefixOf (c :: rest) then some (.bool true, (c :: rest).drop 4)
      else if ("false".toList).isPrefixOf (c :: rest) then some (.bool false, (c :: rest).drop 5)
      else if ("null".toList).isPrefixOf (c :: rest) then some (.null, (c :: rest).drop 4)
      else if ("NaN".toList).isPrefixOf (c :: rest) then some (.num "NaN", (c :: rest).drop 3)
      else if ("Infinity".toList).isPrefixOf (c :: rest) then
        some (.num "Infinity", (c :: rest).drop 8)
      else if ("-Infinity".toList).isPrefixOf (c :: rest) then
        some (.num "-Infinity", (c :: rest).drop 9)
      else
        match parseNumberLex (c :: rest) with
        | none => none
        | some (lex, r2) => some (.num (String.mk lex), r2)

/-- Items of a non-empty JSON array, up to and including the closing
bracket. -/
def parseItems : Nat → PyStr → Option (List Json × PyStr)
  | 0, _ => none
  | fuel + 1, s =>
    match parseVal fuel s with
    | none => none
    | some (j, r) =>
      match skipWs r with
      | [] => none
      | c :: r2 =>
        if c = cmC then
          match parseItems fuel r2 with
          | none => none
          | some (xs, r3) => some (j :: xs, r3)
        else if c = rkC then some ([j], r2)
        else none

/-- Members of a non-empty JSON object, up to and including the closing
brace. -/
def parseMembers : Nat → PyStr → Option (List (String × Json) × PyStr)
  | 0, _ => none
  | fuel + 1, s =>
    match skipWs s with
    | [] => none
    | c :: rest =>
      if c = qC then
        match parseChars rest with
        | none => none
        | some (key, r1) =>
          match skipWs r1 with
          | [] => none
          | d :: r2 =>
            if d = clC then
              match parseVal fuel r2 with
              | none => none
              | some (v, r3) =>
                match skipWs r3 with
                | [] => none
                | e2 :: r4 =>
                  if e2 = cmC then
                    match parseMembers fuel r4 with
                    | none => none
                    | some (ms, r5) => some ((String.mk key, v) :: ms, r5)
                  else if e2 = rbC then some ([(String.mk key, v)], r4)
                  else none
            else none
      else none

end

/-- Model of Python `json.loads`: parse one JSON value and require that only
whitespace remains. -/
def json_loads (s : PyStr) : Option Json :=
  match parseVal (s.length + 1) s with
  | none => none
  | some (j, r) => if skipWs r = [] then some j else none

example : json_loads ("[1]".toList) = some (Json.arr [Json.num "1"]) := rfl
example : json_loads ("nope".toList) = none := rfl
example : json_loads ("7".toList) = some (Json.num "7") := rfl
example : json_loads (" [ \"a\" , -2.5e3 , true ] ".toList)
    = some (Json.arr [Json.str "a", Json.num "-2.5e3", Json.bool true]) := rfl
example : json_loads ("01".toList) = none := rfl

deriving instance DecidableEq for Except

/-! ## autoergen.py — structured (JSON) variant -/

/-- Model of Python `str.lower`, character by character (`str.lower` and
`Char.toLower` agree on ASCII, the alphabet of realistic entity names). -/
def pyLower (s : String) : String := String.mk (s.data.map Char.toLower)

/-- The bare fence marker (three backticks). -/
def fence3 : PyStr := [tickC, tickC, tickC]

/-- The fence marker with the json language tag. -/
def fenceJson : PyStr := [tickC, tickC, tickC, 'j', 's', 'o', 'n']

/-- The fence marker with the dot language tag. -/
def fenceDot : PyStr := [tickC, tickC, tickC, 'd', 'o', 't']

/-- The text clean-up inside `generate_er_spec` (autoergen.py line 43):
`response.text.strip().replace("```json", "").replace("```", "")`. -/
def clean_response (s : PyStr) : PyStr :=
  pyReplace fence3 [] (pyReplace fenceJson [] (pyStrip s))

/-- The empty ER Specification `autoergen.generate_er_spec` falls back to. -/
def emptyERJson : Json :=
  Json.obj [("entities", Json.arr []), ("relationships", Json.arr [])]

/-- Model of `autoergen.generate_er_spec` (lines 15–48), as a function of the
raw text returned by the LLM (the network call itself is external): clean the
response text, `json.loads` it, and on any parsing exception report the error
and return the empty ER Specification.  When parsing succeeds the parsed value
is returned as is. -/
def generate_er_spec (responseText : PyStr) : Json :=
  match json_loads (clean_response responseText) with
  | some j => j
  | none => emptyERJson

/-- Association-list lookup in a parsed JSON object. -/
def jsonGet : List (String × Json) → String → Option Json
  | [], _ => none
  | (k, v) :: rest, key => if k = key then some v else jsonGet rest key

/-- Whether a JSON value is a string. -/
def jsonIsStr : Json → Bool
  | .str _ => true
  | _ => false

/-- Whether a JSON value is a relationship object of the ER Specification
shape: an object whose `from`, `to` and `relation` keys are all strings.
Written from the spec's description of the ER Specification shape. -/
def jsonIsRelObj : Json → Bool
  | .obj fields =>
    (jsonGet fields "from").any jsonIsStr
      && (jsonGet fields "to").any jsonIsStr
      && (jsonGet fields "relation").any jsonIsStr
  | _ => false

/-- Whether a JSON value matches the ER Specification shape described by the
spec: an object with an `entities` array of strings and a `relationships`
array of relationship objects.  Written from the spec's words (used to state
the claim about shape validation, which the code does not perform). -/
def matchesERShape : Json → Bool
  | .obj fields =>
    match jsonGet fields "entities", jsonGet fields "relationships" with
    | some (.arr es), some (.arr rs) => es.all jsonIsStr && rs.all jsonIsRelObj
    | _, _ => false
  | _ => false

/-- A relationship entry as a Python dict, modelled as an association list of
string keys to string values (the keys used by the code are `from`, `to`,
`relation`). -/
abbrev RelDict := List (String × String)

/-- Python dict lookup returning `none` for a missing key (`dict.get`); plain
`rel[key]` indexing is modelled as this lookup followed by a `KeyError` on
`none`. -/
def dictGet : RelDict → String → Option String
  | [], _ => none
  | (k, v) :: rest, key => if k = key then some v else dictGet rest key

/-- The argument of `create_er_diagram` / `generate_sql_schema`: an `er_data`
dictionary with its `entities` list and `relationships` list. -/
structure ERData where
  entities : List String
  relationships : List RelDict
deriving DecidableEq

/-- A graphviz node as registered by `DotGraph.node` (name, label and the style
attributes the code passes). -/
structure DotNode where
  name : String
  label : String
  shape : String
  style : String
  color : String
deriving DecidableEq

/-- A graphviz edge as registered by `DotGraph.edge` (tail, head, label). -/
structure DotEdge where
  src : String
  dst : String
  label : String
deriving DecidableEq

/-- The graphviz `DotGraph` object built by `create_er_diagram`: its comment,
its `rankdir` attribute, and the nodes and edges added to it, in order. -/
structure DotGraph where
  comment : String
  rankdir : String
  nodes : List DotNode
  edges : List DotEdge
deriving DecidableEq

/-- Left-to-right evaluation of a fallible step over a list, stopping at the
first raised exception — the model of a Python `for` loop whose body may
raise. -/
def mapExcept (f : α → Except ε β) : List α → Except ε (List β)
  | [] => .ok []
  | a :: l =>
    match f a with
    | .error e => .error e
    | .ok b =>
      match mapExcept f l with
      | .error e => .error e
      | .ok bs => .ok (b :: bs)

/-- The edge-construction step of `create_er_diagram` (autoergen.py line 61):
`dot.edge(rel["from"], rel["to"], label=rel.get("relation", ""))`.  Indexing
`rel["from"]` and `rel["to"]` raises `KeyError` on a missing key (arguments
are evaluated left to right), while `rel.get("relation", "")` defaults to the
empty string. -/
def edgeOfRel (rel : RelDict) : Except String DotEdge :=
  match dictGet rel "from" with
  | none => .error "KeyError: 'from'"
  | some f =>
    match dictGet rel "to" with
    | none => .error "KeyError: 'to'"
    | some t => .ok ⟨f, t, ((dictGet rel "relation").getD "")⟩

/-- Model of `autoergen.create_er_diagram` (lines 51–62): one box node per
entry of `entities`, then one edge per entry of `relationships`; an exception
raised while building an edge propagates. -/
def create_er_diagram (er : ERData) : Except String DotGraph :=
  match mapExcept edgeOfRel er.relationships with
  | .error e => .error e
  | .ok edges =>
    .ok { comment := "ER Diagram"
          rankdir := "LR"
          nodes := er.entities.map (fun e => ⟨e, e, "box", "filled", "lightblue"⟩)
          edges := edges }

/-- The per-entity statement of `generate_sql_schema` (autoergen.py line 68). -/
def createTableStmt (entity : String) : String :=
  "CREATE TABLE " ++ entity ++ " (\n    id INT PRIMARY KEY,\n    name VARCHAR(100)\n);"

/-- The per-relationship statement of `generate_sql_schema` (autoergen.py
lines 72–75).  The f-strings evaluate `rel['from']`, `rel['relation']`,
`rel['to']` in that order, raising `KeyError` on the first missing key.
`str.lower` is modelled by `String.toLower` (they agree on ASCII). -/
def alterTableStmt (rel : RelDict) : Except String String :=
  match dictGet rel "from" with
  | none => .error "KeyError: 'from'"
  | some f =>
    match dictGet rel "relation" with
    | none => .error "KeyError: 'relation'"
    | some rl =>
      match dictGet rel "to" with
      | none => .error "KeyError: 'to'"
      | some t =>
        .ok ("-- " ++ f ++ " " ++ rl ++ " " ++ t ++ "\n"
          ++ "ALTER TABLE " ++ f ++ " ADD COLUMN " ++ pyLower t ++ "_id INT REFERENCES "
          ++ t ++ "(id);")

/-- Model of `autoergen.generate_sql_schema` (lines 65–77): the CREATE TABLE
statements in entity order, then the ALTER TABLE statements in relationship
order, joined by blank lines. -/
def generate_sql_schema (er : ERData) : Except String String :=
  match mapExcept alterTableStmt er.relationships with
  | .error e => .error e
  | .ok alters =>
    .ok (String.intercalate "\n\n" (er.entities.map createTableStmt ++ alters))

/-- A well-formed relationship triple of an ER Specification, as the spec's
data model describes it (the `from` and `to` keys are spelt `frm` and `toEnt`:
both are reserved words in this development's host language). -/
structure ERRel where
  frm : String
  toEnt : String
  relation : String
deriving DecidableEq

/-- The dictionary a well-formed relationship triple arrives as. -/
def ERRel.toDict (r : ERRel) : RelDict :=
  [("from", r.frm), ("to", r.toEnt), ("relation", r.relation)]

/-- A well-formed ER Specification: entity names plus relationship triples. -/
structure ERSpec where
  entities : List String
  relationships : List ERRel
deriving DecidableEq

/-- The `er_data` dictionary carrying a well-formed ER Specification. -/
def ERSpec.toData (s : ERSpec) : ERData :=
  ⟨s.entities, s.relationships.map ERRel.toDict⟩

/-! Spec-side descriptions (written from the claims' words, to be compared
with the functions modelled from the source). -/

/-- The claim's description of a per-entity table statement: a CREATE TABLE
for the entity with a surrogate integer key column and one name column. -/
def claimCreateStmt (entity : String) : String :=
  "CREATE TABLE " ++ entity ++ " (\n    id INT PRIMARY KEY,\n    name VARCHAR(100)\n);"

/-- The claim's description of a per-relationship statement: a comment naming
the relation, then an ALTER TABLE adding to the `from` table a column named by
lower-casing the `to` entity plus `_id`, declared as a reference to the `to`
entity's id column. -/
def claimAlterStmt (r : ERRel) : String :=
  "-- " ++ r.frm ++ " " ++ r.relation ++ " " ++ r.toEnt ++ "\n"
    ++ "ALTER TABLE " ++ r.frm ++ " ADD COLUMN " ++ pyLower r.toEnt ++ "_id INT REFERENCES "
    ++ r.toEnt ++ "(id);"

/-- The claim's description of the full schema text: one CREATE TABLE per
entity in entity order, followed by one ALTER TABLE per relationship in
relationship order. -/
def claimSchemaText (s : ERSpec) : String :=
  String.intercalate "\n\n"
    (s.entities.map claimCreateStmt ++ s.relationships.map claimAlterStmt)

/-- The claim's description of the node emitted for an entity. -/
def claimNode (e : String) : DotNode := ⟨e, e, "box", "filled", "lightblue"⟩

/-- The claim's description of the edge emitted for a relationship. -/
def claimEdge (r : ERRel) : DotEdge := ⟨r.frm, r.toEnt, r.relation⟩

/-! ## app.py — DOT (database-backed) variant -/

/-- The language-tag removal inside `app.call_gemini_for_dot` (lines
114–115): `if content.startswith("dot"): content = content[3:]`. -/
def stripDotTag (seg : PyStr) : PyStr :=
  if ("dot".toList).isPrefixOf seg then seg.drop 3 else seg

/-- The fence removal inside `app.call_gemini_for_dot` (lines 112–115): when a
fence marker occurs, take the segment between the first two fence markers
(`content.split("```")[1]`) and drop a leading `dot` language tag.  The
indexing cannot raise: when a fence occurs the split has at least two parts
(it is modelled with a default that the guard makes unreachable). -/
def fenceSegment (content : PyStr) : PyStr :=
  if pyContains fence3 content then stripDotTag ((pySplit fence3 content).getD 1 [])
  else content

/-- The clean-up of the response text inside `app.call_gemini_for_dot`
(lines 109–117): strip, remove a fenced block's markers and tag if present,
and strip again. -/
def call_gemini_clean (s : PyStr) : PyStr :=
  pyStrip (fenceSegment (pyStrip s))

/-- Model of `app.call_gemini_for_dot` (lines 96–117) as a function of the
response text the provider returned (the network call, the sampling
configuration and the wall-clock `duration` measurement are external): an
empty response raises `Exception("Gemini returned an empty response.")`,
otherwise the cleaned content is returned. -/
def call_gemini_for_dot (responseText : PyStr) : Except String PyStr :=
  if responseText.isEmpty then .error "Gemini returned an empty response."
  else .ok (call_gemini_clean responseText)

/-- Whether the generate branch of autoergen.py (lines 87–92) reaches the
`generate_er_spec` call — i.e. the Gemini client is invoked: the button was
pressed and `user_input.strip()` is truthy (non-empty); otherwise only the
"Please enter a description." warning is shown. -/
def autoergen_invokes_client (buttonPressed : Bool) (userInput : PyStr) : Bool :=
  buttonPressed && !(pyStrip userInput).isEmpty

/-- Whether the generate branch of app.py (line 174,
`if st.button("🚀 Generate Diagram") and user_input.strip():`) reaches the
`call_gemini_for_dot` call. -/
def app_invokes_client (buttonPressed : Bool) (userInput : PyStr) : Bool :=
  buttonPressed && !(pyStrip userInput).isEmpty

/-- Outcome of a render step, distinguishing an error surfaced to the user as
a message (`st.error`) from an exception that propagates uncaught out of the
step. -/
inductive RenderOutcome where
  | shown : RenderOutcome
  | errorMessage : String → RenderOutcome
  | uncaughtException : String → RenderOutcome
deriving DecidableEq

/-- Model of the render block of app.py (lines 208–212): the
`st.graphviz_chart` call is wrapped in try/except, so an engine exception `e`
becomes an `st.error` message.  The engine's verdict on the markup is the
`renderResult` argument. -/
def app_render_block (renderResult : Except String Unit) : RenderOutcome :=
  match renderResult with
  | .ok _ => .shown
  | .error e => .errorMessage ("Graphviz rendering error: " ++ e)

/-- Model of the render block of autoergen.py (lines 97–100): the
`st.graphviz_chart` call has no surrounding try/except, so an engine
exception propagates uncaught out of the render step. -/
def autoergen_render_block (renderResult : Except String Unit) : RenderOutcome :=
  match renderResult with
  | .ok _ => .shown
  | .error e => .uncaughtException e

/-- A row of the `users` table (the columns `create_user` writes). -/
structure UserRow where
  id : Nat
  email : String
  password_hash : String
deriving DecidableEq

/-- A row of the `projects` table (the columns `create_user` writes). -/
structure ProjectRow where
  user_id : Nat
  name : String
  description : String
deriving DecidableEq

/-- The durable database contents relevant to `create_user`. -/
structure DBState where
  users : List UserRow
  projects : List ProjectRow
deriving DecidableEq

/-- A psycopg2 connection: the durable state it was opened on, plus the
pending uncommitted changes of the current transaction.  `commit` makes the
pending changes durable; `close` without a commit discards them (psycopg2
rolls an open transaction back on close). -/
structure PgConn where
  committed : DBState
  pending : DBState
deriving DecidableEq

/-- Open a connection: no pending changes yet. -/
def PgConn.openOn (db : DBState) : PgConn := ⟨db, db⟩

/-- `conn.commit()`: the pending changes become durable. -/
def PgConn.commit (c : PgConn) : PgConn := ⟨c.pending, c.pending⟩

/-- `conn.close()`: the connection ends and only the committed state
survives. -/
def PgConn.close (c : PgConn) : DBState := c.committed

/-- The `INSERT INTO users ... RETURNING id` statement of `create_user`: it
raises (unique-constraint violation) when the email is already present, or
when an injected external fault occurs; on success the new row joins the
pending transaction state and its id is returned.  Ids are modelled as the
next serial value. -/
def execInsertUser (c : PgConn) (fault : Bool) (email passwordHash : String) :
    Except String (PgConn × Nat) :=
  if fault || c.pending.users.any (fun u => u.email = email) then
    .error "UniqueViolation: users_email_key"
  else
    let uid := c.pending.users.length + 1
    .ok (⟨c.committed, ⟨c.pending.users ++ [⟨uid, email, passwordHash⟩], c.pending.projects⟩⟩, uid)

/-- The `INSERT INTO projects (user_id, name, description)` statement of
`create_user`; it can only fail through an injected external fault. -/
def execInsertProject (c : PgConn) (fault : Bool) (uid : Nat) (name descr : String) :
    Except String PgConn :=
  if fault then .error "InsertFailed"
  else
    .ok ⟨c.committed, ⟨c.pending.users, c.pending.projects ++ [⟨uid, name, descr⟩]⟩⟩

/-- Model of `app.create_user` (lines 54–75), returning the Python result and
the durable database state after the connection is closed.  `hashFn` stands
for `hash_password` (an unsalted SHA-256 via hashlib, external to this
model); `connOk` is whether `get_connection` succeeded; the two fault flags
inject external failures into the two INSERT statements.  The code commits
only after both inserts succeed; every failure path returns `False` and the
`finally` close discards the uncommitted transaction. -/
def create_user (hashFn : String → String) (db : DBState) (connOk : Bool)
    (userInsertFault projectInsertFault : Bool) (email password : String) :
    Bool × DBState :=
  if !connOk then (false, db)
  else
    let conn := PgConn.openOn db
    match execInsertUser conn userInsertFault email (hashFn password) with
    | .error _ => (false, conn.close)
    | .ok (conn1, userId) =>
      match execInsertProject conn1 projectInsertFault userId
          "My First ERD Project" "Default workspace" with
      | .error _ => (false, conn1.close)
      | .ok conn2 => (true, conn2.commit.close)

/-! ## Helper lemmas: strip, findSplit, replace, split, mapExcept -/

theorem dropWhile_head_false {p : Char → Bool} {l t : PyStr} {a : Char}
    (h : l.dropWhile p = a :: t) : p a = false := by
  induction l with
  | nil => exact absurd h (by simp)
  | cons b l ih =>
    by_cases hb : p b = true
    · rw [List.dropWhile_cons_of_pos hb] at h
      exact ih h
    · rw [List.dropWhile_cons_of_neg hb] at h
      cases h
      simpa using hb

theorem dropWhile_append_singleton {p : Char → Bool} {a : Char} (l : PyStr)
    (h : p a = false) : (l ++ [a]).dropWhile p = l.dropWhile p ++ [a] := by
  induction l with
  | nil =>
    have ha : ¬ p a = true := by simp [h]
    show List.dropWhile p ([] ++ [a]) = List.dropWhile p [] ++ [a]
    simp [List.dropWhile_cons_of_neg ha]
  | cons b l ih =>
    by_cases hb : p b = true
    · simpa [List.dropWhile_cons_of_pos hb] using ih
    · simp [List.dropWhile_cons_of_neg hb]

/-- Right strip (the second half of `pyStrip`). -/
def rstrip (s : PyStr) : PyStr := (s.reverse.dropWhile pyIsSpace).reverse

theorem pyStrip_eq_rstrip_dropWhile (s : PyStr) :
    pyStrip s = rstrip (s.dropWhile pyIsSpace) := rfl

theorem rstrip_cons_neg {a : Char} (t : PyStr) (h : pyIsSpace a = false) :
    rstrip (a :: t) = a :: rstrip t := by
  unfold rstrip
  rw [List.reverse_cons, dropWhile_append_singleton _ h, List.reverse_append]
  rfl

theorem rstrip_idem (s : PyStr) : rstrip (rstrip s) = rstrip s := by
  unfold rstrip
  rw [List.reverse_reverse, List.dropWhile_idempotent]

theorem dropWhile_rstrip_fix {s : PyStr} (h : s.dropWhile pyIsSpace = s) :
    (rstrip s).dropWhile pyIsSpace = rstrip s := by
  cases hs : s with
  | nil => simp [rstrip, List.dropWhile]
  | cons a t =>
    have ha : pyIsSpace a = false := dropWhile_head_false (hs ▸ h)
    rw [rstrip_cons_neg t ha, List.dropWhile_cons_of_neg (by simp [ha])]

/-- Stripping is idempotent. -/
theorem pyStrip_idem (s : PyStr) : pyStrip (pyStrip s) = pyStrip s := by
  show rstrip ((rstrip (s.dropWhile pyIsSpace)).dropWhile pyIsSpace)
      = rstrip (s.dropWhile pyIsSpace)
  rw [dropWhile_rstrip_fix (List.dropWhile_idempotent pyIsSpace s), rstrip_idem]

/-- A string whose ends survive `dropWhile` on both sides strips to itself. -/
theorem pyStrip_eq_self {s : PyStr} (h1 : s.dropWhile pyIsSpace = s)
    (h2 : s.reverse.dropWhile pyIsSpace = s.reverse) : pyStrip s = s := by
  unfold pyStrip
  rw [h1, h2, List.reverse_reverse]

theorem pyStrip_nil : pyStrip [] = [] := rfl

/-- An all-whitespace string strips to the empty string. -/
theorem pyStrip_eq_nil_of_all_space {s : PyStr} (h : ∀ c ∈ s, pyIsSpace c = true) :
    pyStrip s = [] := by
  unfold pyStrip
  have h1 : s.dropWhile pyIsSpace = [] := List.dropWhile_eq_nil_iff.mpr (by simpa using h)
  rw [h1]
  rfl

theorem findSplit_nil (sep : PyStr) : findSplit sep [] = none := rfl

theorem findSplit_cons_pos {sep : PyStr} {c : Char} {rest : PyStr}
    (h : sep.isPrefixOf (c :: rest) = true) :
    findSplit sep (c :: rest) = some ([], (c :: rest).drop sep.length) := by
  unfold findSplit
  rw [if_pos h]

theorem findSplit_cons_neg {sep : PyStr} {c : Char} {rest : PyStr}
    (h : sep.isPrefixOf (c :: rest) = false) :
    findSplit sep (c :: rest)
      = (findSplit sep rest).map (fun pr => (c :: pr.1, pr.2)) := by
  conv_lhs => rw [findSplit]
  rw [if_neg (by simp [h])]
  cases findSplit sep rest with
  | none => rfl
  | some pr => rfl

/-- A separator occurring nowhere: the leading marker character of the
separator occurs nowhere in the string. -/
theorem findSplit_none_of_head_free (sep' : PyStr) {a : Char} {s : PyStr}
    (h : ∀ c ∈ s, c ≠ a) : findSplit (a :: sep') s = none := by
  induction s with
  | nil => rfl
  | cons c rest ih =>
    have hc : c ≠ a := h c (by simp)
    have hbeq : (a == c) = false := beq_eq_false_iff_ne.mpr (Ne.symm hc)
    have hp : (a :: sep').isPrefixOf (c :: rest) = false := by
      show (a == c && sep'.isPrefixOf rest) = false
      rw [hbeq]
      rfl
    rw [findSplit_cons_neg hp, ih (fun x hx => h x (by simp [hx]))]
    rfl

theorem findSplit_append_self (sep' rest : PyStr) (a : Char) :
    findSplit (a :: sep') ((a :: sep') ++ rest) = some ([], rest) := by
  have hp : (a :: sep').isPrefixOf (a :: (sep' ++ rest)) = true := by
    rw [List.isPrefixOf_iff_prefix, ← List.cons_append]
    exact List.prefix_append _ _
  rw [List.cons_append, findSplit_cons_pos hp]
  simp only [Option.some.injEq, Prod.mk.injEq, true_and]
  show (a :: (sep' ++ rest)).drop (sep'.length + 1) = rest
  rw [List.drop_succ_cons]
  exact List.drop_left _ _

/-- The first fence in `s ++ fence` is the trailing one when `s` is
tick-free. -/
theorem findSplit_fence_end {s : PyStr} (h : ∀ c ∈ s, c ≠ tickC) :
    findSplit fence3 (s ++ fence3) = some (s, []) := by
  induction s with
  | nil => decide
  | cons c rest ih =>
    have hc : c ≠ tickC := h c (by simp)
    have hbeq : (tickC == c) = false := beq_eq_false_iff_ne.mpr (Ne.symm hc)
    have hp : fence3.isPrefixOf (c :: (rest ++ fence3)) = false := by
      show (tickC == c && ("``".toList).isPrefixOf (rest ++ fence3)) = false
      rw [hbeq]
      rfl
    rw [List.cons_append, findSplit_cons_neg hp,
      ih (fun x hx => h x (by simp [hx]))]
    rfl

theorem pyReplaceFuel_none {sep s : PyStr} (repl : PyStr) (fuel : Nat)
    (h : findSplit sep s = none) : pyReplaceFuel sep repl fuel s = s := by
  cases fuel with
  | zero => rfl
  | succ n =>
    unfold pyReplaceFuel
    rw [h]

theorem pyReplaceFuel_succ {sep s pre post : PyStr} (repl : PyStr) (n : Nat)
    (h : findSplit sep s = some (pre, post)) :
    pyReplaceFuel sep repl (n + 1) s = pre ++ repl ++ pyReplaceFuel sep repl n post := by
  conv_lhs => rw [pyReplaceFuel]
  rw [h]

theorem pySplitFuel_none {sep s : PyStr} (fuel : Nat)
    (h : findSplit sep s = none) : pySplitFuel sep fuel s = [s] := by
  cases fuel with
  | zero => rfl
  | succ n =>
    unfold pySplitFuel
    rw [h]

theorem pySplitFuel_succ {sep s pre post : PyStr} (n : Nat)
    (h : findSplit sep s = some (pre, post)) :
    pySplitFuel sep (n + 1) s = pre :: pySplitFuel sep n post := by
  conv_lhs => rw [pySplitFuel]
  rw [h]

theorem mapExcept_comp_ok {α β γ ε : Type} {f : β → Except ε γ} {g : α → β} {h : α → γ}
    (hfg : ∀ a, f (g a) = .ok (h a)) (l : List α) :
    mapExcept f (l.map g) = .ok (l.map h) := by
  induction l with
  | nil => rfl
  | cons a l ih =>
    simp only [List.map_cons, mapExcept, hfg a, ih]

theorem mapExcept_error_of_mem {α β ε : Type} {f : α → Except ε β} {l : List α} {a : α}
    {e : ε} (hmem : a ∈ l) (herr : f a = .error e) :
    ∃ e', mapExcept f l = .error e' := by
  induction l with
  | nil => cases hmem
  | cons b l ih =>
    unfold mapExcept
    cases hfb : f b with
    | error eb => exact ⟨eb, rfl⟩
    | ok y =>
      rcases List.mem_cons.mp hmem with rfl | hmem'
      · rw [hfb] at herr
        cases herr
      · obtain ⟨e', he'⟩ := ih hmem'
        rw [he']
        exact ⟨e', rfl⟩

theorem mapExcept_ok_mem {α β ε : Type} {f : α → Except ε β} {l : List α} {ys : List β}
    {a : α} {y : β} (hok : mapExcept f l = .ok ys) (hmem : a ∈ l)
    (hfa : f a = .ok y) : y ∈ ys := by
  induction l generalizing ys with
  | nil => cases hmem
  | cons b l ih =>
    unfold mapExcept at hok
    cases hfb : f b with
    | error eb => rw [hfb] at hok; cases hok
    | ok z =>
      rw [hfb] at hok
      cases hrest : mapExcept f l with
      | error e => rw [hrest] at hok; cases hok
      | ok zs =>
        rw [hrest] at hok
        cases hok
        rcases List.mem_cons.mp hmem with rfl | hmem'
        · rw [hfa] at hfb
          cases hfb
          exact List.mem_cons_self _ _
        · exact List.mem_cons_of_mem _ (ih hrest hmem')

theorem mapExcept_ok_of_forall {α β ε : Type} {f : α → Except ε β} {l : List α}
    (h : ∀ a ∈ l, ∃ y, f a = .ok y) : ∃ ys, mapExcept f l = .ok ys := by
  induction l with
  | nil => exact ⟨[], rfl⟩
  | cons b l ih =>
    obtain ⟨y, hy⟩ := h b (by simp)
    obtain ⟨ys, hys⟩ := ih (fun a ha => h a (by simp [ha]))
    exact ⟨y :: ys, by unfold mapExcept; rw [hy, hys]⟩

/-! ## Lemmas about the two normalizers and the two generators -/

/-- A string whose first and last characters are not whitespace strips to
itself. -/
theorem pyStrip_ends (a b : Char) (m : PyStr) (ha : pyIsSpace a = false)
    (hb : pyIsSpace b = false) : pyStrip (a :: (m ++ [b])) = a :: (m ++ [b]) := by
  apply pyStrip_eq_self
  · exact List.dropWhile_cons_of_neg (by simp [ha])
  · have hrev : (a :: (m ++ [b])).reverse = b :: (m.reverse ++ [a]) := by simp
    rw [hrev, List.dropWhile_cons_of_neg (by simp [hb])]

/-- One replacement followed by no further occurrence. -/
theorem pyReplace_once {sep s p r : PyStr} (h1 : findSplit sep s = some (p, r))
    (h2 : findSplit sep r = none) : pyReplace sep [] s = p ++ r := by
  unfold pyReplace
  rw [pyReplaceFuel_succ [] s.length h1, pyReplaceFuel_none [] s.length h2]
  simp

/-- No occurrence: replacement is the identity. -/
theorem pyReplace_id {sep s : PyStr} (repl : PyStr) (h : findSplit sep s = none) :
    pyReplace sep repl s = s :=
  pyReplaceFuel_none repl (s.length + 1) h

/-- The element at index 1 of a split with at least two separators. -/
theorem pySplit_getD_one {sep s p1 r1 p2 r2 : PyStr}
    (h1 : findSplit sep s = some (p1, r1)) (h2 : findSplit sep r1 = some (p2, r2)) :
    (pySplit sep s).getD 1 [] = p2 := by
  obtain ⟨a, s', rfl⟩ : ∃ a s', s = a :: s' := by
    cases s with
    | nil => cases h1
    | cons a s' => exact ⟨a, s', rfl⟩
  unfold pySplit
  rw [pySplitFuel_succ _ h1]
  simp only [List.length_cons]
  rw [pySplitFuel_succ _ h2]
  rfl

/-- No tick occurs in a tick-free string after stripping. -/
theorem tick_free_pyStrip {c : PyStr} (h : ∀ ch ∈ c, ch ≠ tickC) :
    ∀ ch ∈ pyStrip c, ch ≠ tickC := by
  intro ch hch
  apply h
  unfold pyStrip at hch
  have h1 := List.mem_reverse.mp hch
  have h2 := (List.dropWhile_sublist (l := (c.dropWhile pyIsSpace).reverse)
    (p := pyIsSpace)).mem h1
  have h3 := List.mem_reverse.mp h2
  exact (List.dropWhile_sublist (l := c) (p := pyIsSpace)).mem h3

/-- In a tick-free string the json fence marker does not occur. -/
theorem findSplit_fenceJson_none {s : PyStr} (h : ∀ c ∈ s, c ≠ tickC) :
    findSplit fenceJson s = none :=
  findSplit_none_of_head_free _ h

/-- In a tick-free string the bare fence marker does not occur. -/
theorem findSplit_fence3_none {s : PyStr} (h : ∀ c ∈ s, c ≠ tickC) :
    findSplit fence3 s = none :=
  findSplit_none_of_head_free _ h

/-- The json fence marker does not occur in tick-free content followed by the
closing fence (the tag `json` cannot be completed by the trailing ticks). -/
theorem findSplit_fenceJson_end {c : PyStr} (h : ∀ ch ∈ c, ch ≠ tickC) :
    findSplit fenceJson (c ++ fence3) = none := by
  induction c with
  | nil => decide
  | cons a rest ih =>
    have ha : a ≠ tickC := h a (by simp)
    have hbeq : (tickC == a) = false := beq_eq_false_iff_ne.mpr (Ne.symm ha)
    have hp : fenceJson.isPrefixOf (a :: (rest ++ fence3)) = false := by
      show (tickC == a && ([tickC, tickC, 'j', 's', 'o', 'n']).isPrefixOf (rest ++ fence3))
          = false
      rw [hbeq]
      rfl
    rw [List.cons_append, findSplit_cons_neg hp,
      ih (fun x hx => h x (by simp [hx]))]
    rfl

/-- The fenced json response strips to itself (it starts and ends with a
backtick). -/
theorem pyStrip_fencedJson (c : PyStr) :
    pyStrip (fenceJson ++ (c ++ fence3)) = fenceJson ++ (c ++ fence3) := by
  have hshape : fenceJson ++ (c ++ fence3)
      = tickC :: (([tickC, tickC, 'j', 's', 'o', 'n'] ++ (c ++ [tickC, tickC])) ++ [tickC]) := by
    simp [fenceJson, fence3]
  rw [hshape, pyStrip_ends tickC tickC _ (by decide) (by decide)]

/-- The fenced dot response strips to itself. -/
theorem pyStrip_fencedDot (c : PyStr) :
    pyStrip (fenceDot ++ (c ++ fence3)) = fenceDot ++ (c ++ fence3) := by
  have hshape : fenceDot ++ (c ++ fence3)
      = tickC :: (([tickC, tickC, 'd', 'o', 't'] ++ (c ++ [tickC, tickC])) ++ [tickC]) := by
    simp [fenceDot, fence3]
  rw [hshape, pyStrip_ends tickC tickC _ (by decide) (by decide)]

/-- `clean_response` on a json-fenced tick-free content returns the content
exactly (in particular, interior leading/trailing whitespace of the content
survives). -/
theorem clean_response_fenced {c : PyStr} (h : ∀ ch ∈ c, ch ≠ tickC) :
    clean_response (fenceJson ++ (c ++ fence3)) = c := by
  unfold clean_response
  rw [pyStrip_fencedJson]
  have hsplit1 : findSplit fenceJson (fenceJson ++ (c ++ fence3))
      = some ([], c ++ fence3) := by
    have := findSplit_append_self ([tickC, tickC, 'j', 's', 'o', 'n']) (c ++ fence3) tickC
    simpa [fenceJson] using this
  rw [pyReplace_once hsplit1 (findSplit_fenceJson_end h)]
  rw [List.nil_append]
  have hsplit2 : findSplit fence3 (c ++ fence3) = some (c, []) := findSplit_fence_end h
  rw [pyReplace_once hsplit2 (findSplit_nil fence3)]
  simp

/-- `clean_response` on tick-free content is just the strip. -/
theorem clean_response_plain {c : PyStr} (h : ∀ ch ∈ c, ch ≠ tickC) :
    clean_response c = pyStrip c := by
  unfold clean_response
  rw [pyReplace_id [] (findSplit_fenceJson_none (tick_free_pyStrip h)),
    pyReplace_id [] (findSplit_fence3_none (tick_free_pyStrip h))]

/-- `call_gemini_clean` on a dot-fenced tick-free content reduces to the
stripped content. -/
theorem call_gemini_clean_fenced {c : PyStr} (h : ∀ ch ∈ c, ch ≠ tickC) :
    call_gemini_clean (fenceDot ++ (c ++ fence3)) = pyStrip c := by
  have hsplit1 : findSplit fence3 (fenceDot ++ (c ++ fence3))
      = some ([], ['d', 'o', 't'] ++ (c ++ fence3)) := by
    have hfs := findSplit_append_self ([tickC, tickC]) (['d', 'o', 't'] ++ (c ++ fence3)) tickC
    have hshape : fenceDot ++ (c ++ fence3)
        = (tickC :: [tickC, tickC]) ++ (['d', 'o', 't'] ++ (c ++ fence3)) := by
      simp [fenceDot, fence3]
    rw [hshape]
    simpa [fence3] using hfs
  have hcontains : pyContains fence3 (fenceDot ++ (c ++ fence3)) = true := by
    unfold pyContains
    rw [hsplit1]
    rfl
  have hdc : ∀ ch ∈ (['d', 'o', 't'] ++ c), ch ≠ tickC := by
    intro ch hch
    rcases List.mem_append.mp hch with hd | hc
    · simp only [List.mem_cons, List.not_mem_nil, or_false] at hd
      rcases hd with rfl | rfl | rfl <;> decide
    · exact h ch hc
  have hsplit2 : findSplit fence3 (['d', 'o', 't'] ++ (c ++ fence3))
      = some (['d', 'o', 't'] ++ c, []) := by
    have hfe := findSplit_fence_end hdc
    rwa [List.append_assoc] at hfe
  have hpre : ("dot".toList).isPrefixOf (['d', 'o', 't'] ++ c) = true := by
    rw [List.isPrefixOf_iff_prefix]
    exact List.prefix_append _ _
  unfold call_gemini_clean
  rw [pyStrip_fencedDot]
  unfold fenceSegment
  rw [hcontains]
  simp only [if_true]
  rw [pySplit_getD_one hsplit1 hsplit2]
  unfold stripDotTag
  rw [hpre]
  simp only [if_true]
  rfl

/-- `call_gemini_clean` on tick-free content is just the strip. -/
theorem call_gemini_clean_plain {c : PyStr} (h : ∀ ch ∈ c, ch ≠ tickC) :
    call_gemini_clean c = pyStrip c := by
  have hnone : pyContains fence3 (pyStrip c) = false := by
    unfold pyContains
    rw [findSplit_fence3_none (tick_free_pyStrip h)]
    rfl
  unfold call_gemini_clean fenceSegment
  rw [hnone]
  simp only [Bool.false_eq_true, if_false]
  exact pyStrip_idem c

/-- Building an edge from a well-formed relationship triple never raises and
produces the triple's edge. -/
theorem edgeOfRel_toDict (r : ERRel) : edgeOfRel r.toDict = .ok (claimEdge r) := rfl

/-- The ALTER TABLE statement of a well-formed relationship triple never
raises and produces the claim's statement. -/
theorem alterTableStmt_toDict (r : ERRel) :
    alterTableStmt r.toDict = .ok (claimAlterStmt r) := rfl

/-- `create_er_diagram` on a well-formed ER Specification: the nodes are the
entities in order, the edges are the relationships in order. -/
theorem create_er_diagram_toData (spec : ERSpec) :
    create_er_diagram spec.toData
      = .ok ⟨"ER Diagram", "LR", spec.entities.map claimNode,
          spec.relationships.map claimEdge⟩ := by
  unfold create_er_diagram ERSpec.toData
  rw [mapExcept_comp_ok edgeOfRel_toDict]
  rfl

/-- `generate_sql_schema` on a well-formed ER Specification produces exactly
the claim's schema text. -/
theorem generate_sql_schema_toData (spec : ERSpec) :
    generate_sql_schema spec.toData = .ok (claimSchemaText spec) := by
  unfold generate_sql_schema ERSpec.toData
  rw [mapExcept_comp_ok alterTableStmt_toDict]
  rfl

/-- The claim's description of the whole diagram. -/
def claimDiagram (spec : ERSpec) : DotGraph :=
  ⟨"ER Diagram", "LR", spec.entities.map claimNode, spec.relationships.map claimEdge⟩

/-- `create_er_diagram` on a well-formed ER Specification equals the claim's
diagram. -/
theorem create_er_diagram_toData_eq (spec : ERSpec) :
    create_er_diagram spec.toData = .ok (claimDiagram spec) :=
  create_er_diagram_toData spec

/-- In a duplicate-free list, filtering for one of its members keeps exactly
one element. -/
theorem filter_eq_length_one {l : List String} {e : String} (hnd : l.Nodup)
    (he : e ∈ l) : (l.filter (fun x => x = e)).length = 1 := by
  induction l with
  | nil => cases he
  | cons a t ih =>
    rw [List.nodup_cons] at hnd
    rcases List.mem_cons.mp he with rfl | het
    · rw [List.filter_cons_of_pos (by simp)]
      have hnil : t.filter (fun x => x = e) = [] := by
        apply List.filter_eq_nil_iff.mpr
        intro x hx
        simp only [decide_eq_true_eq]
        rintro rfl
        exact hnd.1 hx
      rw [hnil]
      rfl
    · by_cases hae : a = e
      · exact absurd (hae ▸ het) hnd.1
      · rw [List.filter_cons_of_neg (by simp [hae])]
        exact ih hnd.2 het

/-- Filtering the diagram's nodes by an entity name commutes with building
them. -/
theorem nodes_filter_map (l : List String) (e : String) :
    (l.map claimNode).filter (fun n => n.name = e)
      = (l.filter (fun x => x = e)).map claimNode := by
  induction l with
  | nil => rfl
  | cons a t ih =>
    by_cases hae : a = e
    · rw [List.map_cons, List.filter_cons_of_pos (by simp [claimNode, hae]),
        List.filter_cons_of_pos (by simp [hae]), List.map_cons, ih]
    · rw [List.map_cons, List.filter_cons_of_neg (by simp [claimNode, hae]),
        List.filter_cons_of_neg (by simp [hae]), ih]

/-- Exactly one node carries each distinct entity name. -/
theorem nodes_filter_count {l : List String} {e : String} (hnd : l.Nodup)
    (he : e ∈ l) : ((l.map claimNode).filter (fun n => n.name = e)).length = 1 := by
  rw [nodes_filter_map, List.length_map]
  exact filter_eq_length_one hnd he

/-- A relationship whose ALTER TABLE step raises makes the whole schema
synthesis raise. -/
theorem sql_error_lift {er : ERData} {rel : RelDict} {e : String}
    (hmem : rel ∈ er.relationships) (h : alterTableStmt rel = .error e) :
    ∃ e', generate_sql_schema er = .error e' := by
  obtain ⟨e', he'⟩ := mapExcept_error_of_mem hmem h
  refine ⟨e', ?_⟩
  unfold generate_sql_schema
  rw [he']

/-- A relationship whose edge step raises makes the whole diagram build
raise. -/
theorem diagram_error_lift {er : ERData} {rel : RelDict} {e : String}
    (hmem : rel ∈ er.relationships) (h : edgeOfRel rel = .error e) :
    ∃ e', create_er_diagram er = .error e' := by
  obtain ⟨e', he'⟩ := mapExcept_error_of_mem hmem h
  refine ⟨e', ?_⟩
  unfold create_er_diagram
  rw [he']

/-- Closed form of `create_user`: it succeeds exactly when the connection
opens, no insert faults, and the email is fresh; on success the two rows are
appended together, otherwise the durable state is untouched. -/
theorem create_user_eq (hashFn : String → String) (db : DBState) (connOk f1 f2 : Bool)
    (email password : String) :
    create_user hashFn db connOk f1 f2 email password
      = if connOk && !f1 && !f2 && !(db.users.any (fun u => u.email = email))
        then (true,
          ⟨db.users ++ [⟨db.users.length + 1, email, hashFn password⟩],
           db.projects ++ [⟨db.users.length + 1, "My First ERD Project", "Default workspace"⟩]⟩)
        else (false, db) := by
  unfold create_user execInsertUser execInsertProject
  cases connOk <;> cases f1 <;> cases f2 <;>
    cases hany : db.users.any (fun u => u.email = email) <;>
      simp [hany, PgConn.openOn, PgConn.commit, PgConn.close]

/-! ## Claims -/

/-- C1, counterexample: the raw output `[1]` is valid JSON that does not
match the ER Specification shape, yet `generate_er_spec` returns the parsed
array unchanged instead of the empty ER Specification — the code performs no
shape validation after `json.loads`. -/
theorem C1_counterexample :
    json_loads (clean_response ("[1]".toList)) = some (Json.arr [Json.num "1"])
    ∧ matchesERShape (Json.arr [Json.num "1"]) = false
    ∧ generate_er_spec ("[1]".toList) ≠ emptyERJson := by
  refine ⟨rfl, rfl, fun h => ?_⟩
  have h2 : Json.arr [Json.num "1"] = emptyERJson := h
  exact Json.noConfusion h2

/-- C1, amended: for every raw generation output whose cleaned text is not
valid JSON, `generate_er_spec` raises nothing past its boundary and returns
the empty ER Specification; when the cleaned text does parse, the parsed
value is returned as is, with no validation of the ER Specification shape. -/
theorem C1_parse_failure_yields_empty_spec (s : PyStr) :
    (json_loads (clean_response s) = none → generate_er_spec s = emptyERJson)
    ∧ (∀ j, json_loads (clean_response s) = some j → generate_er_spec s = j) := by
  constructor
  · intro h
    unfold generate_er_spec
    rw [h]
  · intro j h
    unfold generate_er_spec
    rw [h]

/-- C1, witness: a non-JSON response yields the empty ER Specification; a
parsing response is passed through. -/
theorem C1_witness :
    generate_er_spec ("oops".toList) = emptyERJson
    ∧ generate_er_spec ("7".toList) = Json.num "7" :=
  ⟨(C1_parse_failure_yields_empty_spec ("oops".toList)).1 rfl,
   (C1_parse_failure_yields_empty_spec ("7".toList)).2 (Json.num "7") rfl⟩

/-- C2: schema synthesis is a deterministic function of the ER Specification
(equal inputs give this single byte-identical text): one CREATE TABLE per
entity (surrogate integer key plus one name column) in entity order, followed
by one ALTER TABLE per relationship in relationship order, each adding to the
`from` table a column named by the lower-cased `to` entity plus `_id`,
declared as a reference to the `to` entity's id column and preceded by a
comment naming the relation. -/
theorem C2_schema_synthesis_shape (spec : ERSpec) :
    generate_sql_schema spec.toData = Except.ok (claimSchemaText spec) :=
  generate_sql_schema_toData spec

/-- C3: on a well-formed ER Specification with distinct entity names, the
diagram has exactly one box node per distinct entity name, labeled with that
name, and exactly one edge per relationship entry, in input order, from its
`from` entity to its `to` entity labeled with its relation. -/
theorem C3_diagram_nodes_edges (spec : ERSpec) (hnd : spec.entities.Nodup) :
    create_er_diagram spec.toData = Except.ok (claimDiagram spec)
    ∧ (claimDiagram spec).nodes = spec.entities.map claimNode
    ∧ (∀ e ∈ spec.entities,
        (((claimDiagram spec).nodes).filter (fun n => n.name = e)).length = 1)
    ∧ (∀ n ∈ (claimDiagram spec).nodes,
        n.shape = "box" ∧ n.label = n.name ∧ n.name ∈ spec.entities)
    ∧ (claimDiagram spec).edges = spec.relationships.map claimEdge := by
  refine ⟨create_er_diagram_toData_eq spec, rfl, ?_, ?_, rfl⟩
  · intro e he
    exact nodes_filter_count hnd he
  · intro n hn
    obtain ⟨x, hx, rfl⟩ := List.mem_map.mp hn
    exact ⟨rfl, rfl, hx⟩

/-- C3, witness: the spec's Customer/Order example has duplicate-free
entities and renders to the expected diagram. -/
theorem C3_witness :
    create_er_diagram
        (ERSpec.toData ⟨["Customer", "Order"], [⟨"Customer", "Order", "places"⟩]⟩)
      = Except.ok (claimDiagram ⟨["Customer", "Order"], [⟨"Customer", "Order", "places"⟩]⟩) :=
  (C3_diagram_nodes_edges ⟨["Customer", "Order"], [⟨"Customer", "Order", "places"⟩]⟩
    (by decide)).1

/-- C4, counterexample: for the fenced raw output made of the json-tagged
fence around the content newline-a-newline, the JSON-variant normalizer
returns the content with its surrounding whitespace intact, while normalizing
the same content unwrapped strips that whitespace — the results are not
byte-identical. -/
theorem C4_counterexample :
    clean_response (fenceJson ++ ("\na\n".toList ++ fence3)) = "\na\n".toList
    ∧ clean_response ("\na\n".toList) = "a".toList
    ∧ clean_response (fenceJson ++ ("\na\n".toList ++ fence3))
        ≠ clean_response ("\na\n".toList) := by
  refine ⟨by decide, by decide, by decide⟩

/-- C4, amended: for backtick-free content, the DOT-variant normalizer maps
the dot-tagged fenced form and the unwrapped form to the same bytes (the
stripped content); the JSON-variant normalizer removes the fence markers and
tag exactly, so it agrees with the unwrapped case exactly when the content
carries no surrounding whitespace of its own. -/
theorem C4_fence_stripping (c : PyStr) (h : ∀ ch ∈ c, ch ≠ tickC) :
    (call_gemini_clean (fenceDot ++ (c ++ fence3)) = pyStrip c
      ∧ call_gemini_clean c = pyStrip c)
    ∧ (pyStrip c = c →
        clean_response (fenceJson ++ (c ++ fence3)) = c ∧ clean_response c = c) := by
  refine ⟨⟨call_gemini_clean_fenced h, call_gemini_clean_plain h⟩,
    fun hs => ⟨clean_response_fenced h, ?_⟩⟩
  rw [clean_response_plain h, hs]

/-- C4, witness: both normalizers at the concrete content `digraph G`. -/
theorem C4_witness :
    (call_gemini_clean (fenceDot ++ ("digraph G".toList ++ fence3))
        = pyStrip ("digraph G".toList)
      ∧ call_gemini_clean ("digraph G".toList) = pyStrip ("digraph G".toList))
    ∧ clean_response (fenceJson ++ ("digraph G".toList ++ fence3)) = "digraph G".toList
    ∧ clean_response ("digraph G".toList) = "digraph G".toList :=
  ⟨(C4_fence_stripping ("digraph G".toList) (by decide)).1,
   (C4_fence_stripping ("digraph G".toList) (by decide)).2 (by decide)⟩

/-- C5, counterexample: the single-space response text is non-empty, yet the
call returns successfully with empty text — the returned raw text is not
guaranteed non-empty. -/
theorem C5_counterexample :
    ([' '] : PyStr) ≠ [] ∧ call_gemini_for_dot [' '] = Except.ok [] := by
  refine ⟨by decide, by decide⟩

/-- C5, amended: an empty response text raises the empty-generation error and
returns no text; a non-empty response text returns successfully with the
cleaned content, which may itself be empty. -/
theorem C5_empty_response_raises (s : PyStr) :
    (s = [] → call_gemini_for_dot s = Except.error "Gemini returned an empty response.")
    ∧ (s ≠ [] → call_gemini_for_dot s = Except.ok (call_gemini_clean s)) := by
  constructor
  · intro h
    subst h
    rfl
  · intro h
    cases s with
    | nil => exact absurd rfl h
    | cons a t => rfl

/-- C5, witness: the empty response raises; the one-letter response returns
its cleaned content. -/
theorem C5_witness :
    call_gemini_for_dot [] = Except.error "Gemini returned an empty response."
    ∧ call_gemini_for_dot ['a'] = Except.ok (call_gemini_clean ['a']) :=
  ⟨(C5_empty_response_raises []).1 rfl,
   (C5_empty_response_raises ['a']).2 (by decide)⟩

/-- C6: for an empty or all-whitespace user description, neither variant's
generate handler reaches the generation-client call, whatever the button
state. -/
theorem C6_whitespace_never_calls_client (pressed : Bool) (u : PyStr)
    (h : ∀ c ∈ u, pyIsSpace c = true) :
    autoergen_invokes_client pressed u = false
    ∧ app_invokes_client pressed u = false := by
  have hstrip : pyStrip u = [] := pyStrip_eq_nil_of_all_space h
  unfold autoergen_invokes_client app_invokes_client
  rw [hstrip]
  simp

/-- C6, witness: the space-tab-newline description never triggers a client
call even with the button pressed. -/
theorem C6_witness :
    autoergen_invokes_client true [' ', '\t', '\n'] = false
    ∧ app_invokes_client true [' ', '\t', '\n'] = false :=
  C6_whitespace_never_calls_client true [' ', '\t', '\n'] (by decide)

/-- C7, counterexample: in the autoergen variant an engine rejection
propagates out of the render step as an uncaught exception instead of being
surfaced as an error message. -/
theorem C7_counterexample :
    autoergen_render_block (Except.error "syntax error in line 1")
      = RenderOutcome.uncaughtException "syntax error in line 1"
    ∧ autoergen_render_block (Except.error "syntax error in line 1")
      ≠ RenderOutcome.errorMessage
          "Graphviz rendering error: syntax error in line 1" := by
  refine ⟨rfl, by decide⟩

/-- C7, amended: when the layout engine rejects the markup, the app variant
surfaces the error as a message without the exception escaping the render
step, while the autoergen variant has no handler and lets the engine's
exception propagate uncaught out of the render step. -/
theorem C7_render_error_handling (e : String) :
    app_render_block (Except.error e)
      = RenderOutcome.errorMessage ("Graphviz rendering error: " ++ e)
    ∧ autoergen_render_block (Except.error e) = RenderOutcome.uncaughtException e
    ∧ app_render_block (Except.ok ()) = RenderOutcome.shown
    ∧ autoergen_render_block (Except.ok ()) = RenderOutcome.shown :=
  ⟨rfl, rfl, rfl, rfl⟩

/-- C8: a relationship whose `from` or `to` entity is absent from the entity
set is rendered anyway — the diagram builder performs no referential
validation, raises no error, and emits the dangling edge. -/
theorem C8_dangling_edges (spec : ERSpec) (r : ERRel) (hr : r ∈ spec.relationships)
    (_hdangling : r.frm ∉ spec.entities ∨ r.toEnt ∉ spec.entities) :
    create_er_diagram spec.toData = Except.ok (claimDiagram spec)
    ∧ claimEdge r ∈ (claimDiagram spec).edges :=
  ⟨create_er_diagram_toData_eq spec, List.mem_map_of_mem claimEdge hr⟩

/-- C8, witness: an edge to the undeclared entity Ghost is still emitted. -/
theorem C8_witness :
    create_er_diagram
        (ERSpec.toData ⟨["Customer"], [⟨"Customer", "Ghost", "haunts"⟩]⟩)
      = Except.ok (claimDiagram ⟨["Customer"], [⟨"Customer", "Ghost", "haunts"⟩]⟩)
    ∧ claimEdge ⟨"Customer", "Ghost", "haunts"⟩
        ∈ (claimDiagram ⟨["Customer"], [⟨"Customer", "Ghost", "haunts"⟩]⟩).edges :=
  C8_dangling_edges ⟨["Customer"], [⟨"Customer", "Ghost", "haunts"⟩]⟩
    ⟨"Customer", "Ghost", "haunts"⟩ (by decide) (Or.inr (by decide))

/-- C9: a relationship dictionary lacking only the `relation` key is
tolerated by the diagram builder (its edge gets the empty label; the whole
diagram still builds when every relationship has `from` and `to`), while the
schema synthesizer raises a KeyError on the same input; lacking `from`, or
lacking `to` with `from` present, makes both functions raise. -/
theorem C9_missing_relationship_keys (er : ERData) (rel : RelDict) (f t : String)
    (hmem : rel ∈ er.relationships) :
    ((dictGet rel "from" = some f ∧ dictGet rel "to" = some t
        ∧ dictGet rel "relation" = none) →
      edgeOfRel rel = .ok ⟨f, t, ""⟩
      ∧ (∃ e, generate_sql_schema er = .error e)
      ∧ ((∀ r' ∈ er.relationships,
            (dictGet r' "from").isSome ∧ (dictGet r' "to").isSome) →
          ∃ d, create_er_diagram er = .ok d ∧ DotEdge.mk f t "" ∈ d.edges))
    ∧ (dictGet rel "from" = none →
        (∃ e, create_er_diagram er = .error e)
        ∧ (∃ e, generate_sql_schema er = .error e))
    ∧ ((dictGet rel "from").isSome → dictGet rel "to" = none →
        (∃ e, create_er_diagram er = .error e)
        ∧ (∃ e, generate_sql_schema er = .error e)) := by
  refine ⟨?_, ?_, ?_⟩
  · rintro ⟨hf, ht, hrel⟩
    have hedge : edgeOfRel rel = .ok ⟨f, t, ""⟩ := by
      unfold edgeOfRel
      rw [hf, ht, hrel]
      rfl
    have hsql : alterTableStmt rel = .error "KeyError: 'relation'" := by
      unfold alterTableStmt
      rw [hf, hrel]
    refine ⟨hedge, sql_error_lift hmem hsql, ?_⟩
    intro hall
    have hok : ∀ r' ∈ er.relationships, ∃ y, edgeOfRel r' = .ok y := by
      intro r' hr'
      obtain ⟨f', hf'⟩ := Option.isSome_iff_exists.mp (hall r' hr').1
      obtain ⟨t', ht'⟩ := Option.isSome_iff_exists.mp (hall r' hr').2
      refine ⟨⟨f', t', (dictGet r' "relation").getD ""⟩, ?_⟩
      unfold edgeOfRel
      rw [hf', ht']
    obtain ⟨ys, hys⟩ := mapExcept_ok_of_forall hok
    refine ⟨⟨"ER Diagram", "LR",
      er.entities.map (fun e => ⟨e, e, "box", "filled", "lightblue"⟩), ys⟩, ?_, ?_⟩
    · unfold create_er_diagram
      rw [hys]
    · exact mapExcept_ok_mem hys hmem hedge
  · intro hf
    have hedge : edgeOfRel rel = .error "KeyError: 'from'" := by
      unfold edgeOfRel
      rw [hf]
    have hsql : alterTableStmt rel = .error "KeyError: 'from'" := by
      unfold alterTableStmt
      rw [hf]
    exact ⟨diagram_error_lift hmem hedge, sql_error_lift hmem hsql⟩
  · intro hf ht
    obtain ⟨f', hf'⟩ := Option.isSome_iff_exists.mp hf
    have hedge : edgeOfRel rel = .error "KeyError: 'to'" := by
      unfold edgeOfRel
      rw [hf', ht]
    have hsql : ∃ e, alterTableStmt rel = .error e := by
      cases hrel : dictGet rel "relation" with
      | none =>
        refine ⟨"KeyError: 'relation'", ?_⟩
        unfold alterTableStmt
        rw [hf', hrel]
      | some rl =>
        refine ⟨"KeyError: 'to'", ?_⟩
        unfold alterTableStmt
        rw [hf', hrel, ht]
    obtain ⟨e, he⟩ := hsql
    exact ⟨diagram_error_lift hmem hedge, sql_error_lift hmem he⟩

/-- C9, witness: the three key-omission shapes at concrete inputs. -/
theorem C9_witness :
    (edgeOfRel [("from", "A"), ("to", "B")] = .ok ⟨"A", "B", ""⟩
      ∧ (∃ e, generate_sql_schema ⟨["A", "B"], [[("from", "A"), ("to", "B")]]⟩
          = .error e)
      ∧ ((∀ r' ∈ ([[("from", "A"), ("to", "B")]] : List RelDict),
            (dictGet r' "from").isSome ∧ (dictGet r' "to").isSome) →
          ∃ d, create_er_diagram ⟨["A", "B"], [[("from", "A"), ("to", "B")]]⟩ = .ok d
            ∧ DotEdge.mk "A" "B" "" ∈ d.edges))
    ∧ ((∃ e, create_er_diagram ⟨[], [[("to", "B")]]⟩ = .error e)
      ∧ (∃ e, generate_sql_schema ⟨[], [[("to", "B")]]⟩ = .error e))
    ∧ ((∃ e, create_er_diagram ⟨[], [[("from", "A")]]⟩ = .error e)
      ∧ (∃ e, generate_sql_schema ⟨[], [[("from", "A")]]⟩ = .error e)) :=
  ⟨(C9_missing_relationship_keys ⟨["A", "B"], [[("from", "A"), ("to", "B")]]⟩
      [("from", "A"), ("to", "B")] "A" "B" (by decide)).1
      ⟨by decide, by decide, by decide⟩,
   (C9_missing_relationship_keys ⟨[], [[("to", "B")]]⟩ [("to", "B")] "" ""
      (by decide)).2.1 (by decide),
   (C9_missing_relationship_keys ⟨[], [[("from", "A")]]⟩ [("from", "A")] "" ""
      (by decide)).2.2 (by decide) (by decide)⟩

/-- C10: `create_user` is atomic: if it returns True, the new user row and
its default project row were persisted together by the single commit; on any
failure it returns False and the durable state is unchanged, because the
commit is only issued after both inserts succeed and closing the connection
discards the open transaction. -/
theorem C10_create_user_atomic (hashFn : String → String) (db : DBState)
    (connOk f1 f2 : Bool) (email password : String) :
    ((create_user hashFn db connOk f1 f2 email password).1 = true →
      (create_user hashFn db connOk f1 f2 email password).2
        = ⟨db.users ++ [⟨db.users.length + 1, email, hashFn password⟩],
           db.projects ++ [⟨db.users.length + 1, "My First ERD Project",
             "Default workspace"⟩]⟩)
    ∧ ((create_user hashFn db connOk f1 f2 email password).1 = false →
      (create_user hashFn db connOk f1 f2 email password).2 = db) := by
  rw [create_user_eq]
  by_cases hc : (connOk && !f1 && !f2
      && !(db.users.any (fun u => u.email = email))) = true
  · rw [if_pos hc]
    exact ⟨fun _ => rfl, fun h => by simp at h⟩
  · rw [if_neg hc]
    exact ⟨fun h => by simp at h, fun _ => rfl⟩

/-- C10, witness: a successful signup persists exactly the two rows; a signup
whose user insert faults leaves the database unchanged. -/
theorem C10_witness :
    (create_user (fun s => s) ⟨[], []⟩ true false false "a@b.c" "pw").2
      = ⟨[⟨1, "a@b.c", "pw"⟩], [⟨1, "My First ERD Project", "Default workspace"⟩]⟩
    ∧ (create_user (fun s => s) ⟨[], []⟩ true true false "a@b.c" "pw").2 = ⟨[], []⟩ :=
  ⟨(C10_create_user_atomic (fun s => s) ⟨[], []⟩ true false false "a@b.c" "pw").1
      (by decide),
   (C10_create_user_atomic (fun s => s) ⟨[], []⟩ true true false "a@b.c" "pw").2
      (by decide)⟩
